import Mathlib

/-! Quorum voting of the Redis lock coordinator (redlock.go)

A shallow embedding of `src/redlock/redlock.go`.

* A call to a server is represented by what it hands back to the Go code: the
  pair `(resp, err)` of `EvalSha(...).Result()` or `Get(...).Result()`.
* Every public operation starts one worker per client; each worker appends one
  vote to `successfulSets`.  The list of replies given to an operation is the
  list of the workers' replies in the order in which the workers append, one
  reply per configured client, so `len(rl.client)` is the length of that list.
  The appends are taken one at a time; the source does not guard the slices,
  and what an append lost between two workers would do is outside this model.
* The wall clock is an input: `elapsed` is the measured duration in hundredths
  of a second, the precision kept by `fmt.Sprintf("%.2f", ...)`.
* The three Lua scripts run against a key/value store whose record for a key is
  absent or a token with an expiry in milliseconds.
-/

namespace Redlock

/-! ## Replies of the Redis client -/

/-- The `interface{}` value of a reply: `nil`, a string or an `int64`. -/
inductive Resp where
  | nil : Resp
  | str (s : String) : Resp
  | int (n : Int) : Resp
deriving DecidableEq, Repr

/-- The pair `(resp, err)` returned by `.Result()`; `err = none` is Go's `err == nil`. -/
structure Reply where
  resp : Resp
  err : Option String
deriving DecidableEq, Repr

/-- The pair `(float64, error)` returned by `SetLock` and `UnSetLock`: the
duration in hundredths of a second and the error. -/
structure Timed where
  seconds : Nat
  err : Option String
deriving DecidableEq, Repr

/-- What a call of `GetLockTtl` does: it returns `(int64, error)`, or the
index expression `TtlSets[0]` is out of range. -/
inductive TtlResult where
  | ret (ttl : Int) (err : Option String) : TtlResult
  | indexOutOfRange : TtlResult
deriving DecidableEq, Repr

def tolerance : Int := 500

def millisPerSecond : Int := 1000

/-- Go's `int` on a 64-bit platform: the value of an integer expression wrapped
into the signed 64-bit range. -/
def wrapInt (x : Int) : Int := (x + 2 ^ 63) % 2 ^ 64 - 2 ^ 63

/-- The expiry argument of the acquire script: `int(ttl)*millisPerSecond+tolerance`. -/
def expiryMillis (ttl : Int) : Int := wrapInt (wrapInt (ttl * millisPerSecond) + tolerance)

/-- The text of `fmt.Sprintf("%.2f", s)` for a duration of `elapsed` hundredths of a second. -/
def fmtSeconds (elapsed : Nat) : String :=
  toString (elapsed / 100) ++ "." ++ toString (elapsed % 100 / 10) ++ toString (elapsed % 10)

/-! ## The two helpers -/

/-- The method `sum`: the loop runs over `iter` from the left and increments `num` on `true`. -/
def sum (iter : List Bool) : Nat :=
  iter.foldl (fun num b => if b then num + 1 else num) 0

/-- The loop of `allEqual` from index 1 on: `first` is `iter[0]`. -/
def allEqualLoop (first : Int) : List Int → Bool
  | [] => true
  | x :: rest => if x != first then false else allEqualLoop first rest

/-- The method `allEqual`. -/
def allEqual : List Int → Bool
  | [] => true
  | first :: rest => allEqualLoop first rest

/-! ## SetLock -/

/-- The worker of `SetLock` once `EvalSha` has returned `r`: the vote it appends. -/
def setLockWorker (successfulSets : List Bool) (r : Reply) : List Bool :=
  if r.err ≠ none then successfulSets ++ [false]
  else if r.resp = Resp.nil then successfulSets ++ [false]
  else
    let ok : Bool := match r.resp with
      | Resp.str reply => reply == "OK"
      | _ => false
    if ok then successfulSets ++ [true]
    else successfulSets ++ [true]

/-- The method `SetLock` after `wg.Wait()`, on the replies of the clients. -/
def SetLock (key : String) (elapsed : Nat) (replies : List Reply) : Timed :=
  let successfulSets := replies.foldl setLockWorker []
  let successfulNum := sum successfulSets
  let locked : Bool := decide (successfulNum ≥ replies.length / 2 + 1)
  if locked != true then ⟨0, some ("Can not acquire the lock " ++ key)⟩
  else ⟨elapsed, none⟩

/-! ## UnSetLock -/

/-- The worker of `UnSetLock` once `EvalSha` has returned `r`. -/
def unSetLockWorker (successfulSets : List Bool) (r : Reply) : List Bool :=
  if r.err ≠ none then successfulSets ++ [false]
  else
    let ok : Bool := match r.resp with
      | Resp.str reply => reply == "OK"
      | _ => false
    if ok then successfulSets ++ [true]
    else successfulSets ++ [true]

/-- The method `UnSetLock` after `wg.Wait()`. -/
def UnSetLock (key : String) (elapsed : Nat) (replies : List Reply) : Timed :=
  let successfulSets := replies.foldl unSetLockWorker []
  let successfulNum := sum successfulSets
  let locked : Bool := decide (successfulNum ≥ replies.length / 2 + 1)
  if locked != true then ⟨0, some ("Can not release the lock " ++ key)⟩
  else ⟨elapsed, none⟩

/-! ## GetLockTtl -/

/-- The two slices the workers of `GetLockTtl` append to. -/
structure TtlTally where
  successfulSets : List Bool
  TtlSets : List Int
deriving DecidableEq, Repr

/-- The worker of `GetLockTtl` once `EvalSha` has returned `r`.  The assertion
`resp.(int64)` yields 0 when `resp` is not an `int64`. -/
def getLockTtlWorker (t : TtlTally) (r : Reply) : TtlTally :=
  if r.err ≠ none then ⟨t.successfulSets ++ [false], t.TtlSets⟩
  else
    let reply : Int := match r.resp with
      | Resp.int n => n
      | _ => 0
    ⟨t.successfulSets ++ [true], t.TtlSets ++ [reply]⟩

/-- The tally of `GetLockTtl` at `wg.Wait()`. -/
def getLockTtlTally (replies : List Reply) : TtlTally :=
  replies.foldl getLockTtlWorker ⟨[], []⟩

/-- The error message of `GetLockTtl`, from the format
`"Could not fetch the TTL for lock %s in %.2f seconds"`. -/
def ttlError (key : String) (elapsed : Nat) : String :=
  "Could not fetch the TTL for lock " ++ key ++ " in " ++ fmtSeconds elapsed ++ " seconds"

/-- The method `GetLockTtl` after `wg.Wait()`. -/
def GetLockTtl (key : String) (elapsed : Nat) (replies : List Reply) : TtlResult :=
  let t := getLockTtlTally replies
  let successfulNum := sum t.successfulSets
  let locked : Bool := decide (successfulNum ≥ replies.length / 2 + 1)
  let success : Bool := allEqual t.TtlSets && locked
  if success != true then
    TtlResult.ret 0 (some (ttlError key elapsed))
  else
    match t.TtlSets with
    | first :: _ => TtlResult.ret first none
    | [] => TtlResult.indexOutOfRange

/-! ## IsLocked -/

/-- The worker of `IsLocked` once `Get` has returned `r`. -/
def isLockedWorker (successfulSets : List Bool) (r : Reply) : List Bool :=
  if r.err ≠ none then successfulSets ++ [false]
  else successfulSets ++ [true]

/-- The method `IsLocked` after `wg.Wait()`. -/
def IsLocked (replies : List Reply) : Bool :=
  let successfulSets := replies.foldl isLockedWorker []
  let successfulNum := sum successfulSets
  decide (successfulNum ≥ replies.length / 2 + 1)

/-! ## The scripts and the servers they run on -/

/-- A lock record: the token stored under a key and the expiry in milliseconds
it was stored with. -/
structure Record where
  token : String
  expiry : Int
deriving DecidableEq, Repr

/-- The keyspace of one server.  A key whose record has expired is absent: the
store drops a record at its expiry. -/
abbrev Store := String → Option Record

/-- What a script hands back to the client: a status reply, an error reply or an integer. -/
inductive ScriptReply where
  | status (s : String) : ScriptReply
  | error (e : String) : ScriptReply
  | integer (n : Int) : ScriptReply
deriving DecidableEq, Repr

/-- The command `get KEYS[1]` inside a script: the stored token, or nothing. -/
def redisGet (db : Store) (key : String) : Option String :=
  (db key).map Record.token

/-- The command `set KEYS[1] ARGV[1] PX ARGV[2]`.  The server refuses an expiry
that is not positive: the call raises an error, the script ends with it and
nothing is stored.  Otherwise the record is stored and the reply is `OK`.  (An
expiry so large that it overflows the clock of the server is not modelled.) -/
def redisSetPX (db : Store) (key value : String) (px : Int) : Store × ScriptReply :=
  if px ≤ 0 then (db, ScriptReply.error "ERR invalid expire time in 'set' command")
  else (Function.update db key (some ⟨value, px⟩), ScriptReply.status "OK")

/-- The command `del KEYS[1]`: removes the record, replies the number of keys removed. -/
def redisDel (db : Store) (key : String) : Store × ScriptReply :=
  (Function.update db key none, ScriptReply.integer (if (db key).isSome then 1 else 0))

/-- The script `lockCommand` with `KEYS[1] = key`, `ARGV[1] = value`, `ARGV[2] = px`. -/
def lockCommand (db : Store) (key value : String) (px : Int) : Store × ScriptReply :=
  let identifier := redisGet db key
  if identifier = none ∨ identifier = some value then
    redisSetPX db key value px
  else
    (db, ScriptReply.error "ERROR")

/-- The script `delCommand` with `KEYS[1] = key`, `ARGV[1] = value`. -/
def delCommand (db : Store) (key value : String) : Store × ScriptReply :=
  let identifier := redisGet db key
  if identifier = none then
    (db, ScriptReply.status "OK")
  else if identifier = some value then
    redisDel db key
  else
    (db, ScriptReply.error "ERROR")

/-- How the client surfaces a script reply in `.Result()`: a status reply is a
string, an integer an `int64`, an error reply a non-nil error. -/
def ScriptReply.toReply : ScriptReply → Reply
  | ScriptReply.status s => ⟨Resp.str s, none⟩
  | ScriptReply.error e => ⟨Resp.nil, some e⟩
  | ScriptReply.integer n => ⟨Resp.int n, none⟩

/-- One lock server: whether the client reaches it, and its keyspace. -/
structure Server where
  up : Bool
  db : Store

/-- The transport error of a call to a server that is not reached. -/
def unreachable : Reply := ⟨Resp.nil, some "dial tcp: connection refused"⟩

/-- The call `EvalSha(ctx, client.lockSha, []string{key}, value, px)` on one server. -/
def evalLock (key value : String) (px : Int) (s : Server) : Server × Reply :=
  if s.up then
    let out := lockCommand s.db key value px
    (⟨s.up, out.1⟩, out.2.toReply)
  else (s, unreachable)

/-- The call `Get(ctx, key).Result()` on one server: the value, or the error
`redis: nil` of the client when the key is absent. -/
def evalGet (key : String) (s : Server) : Reply :=
  if s.up then
    match redisGet s.db key with
    | some v => ⟨Resp.str v, none⟩
    | none => ⟨Resp.str "", some "redis: nil"⟩
  else unreachable

/-- A whole call of `SetLock(ctx, key, value, ttl)` against the servers: every
server runs the acquire script, then the votes are tallied. -/
def SetLockOn (servers : List Server) (key value : String) (ttl : Int) (elapsed : Nat) :
    List Server × Timed :=
  let out := servers.map (evalLock key value (expiryMillis ttl))
  (out.map Prod.fst, SetLock key elapsed (out.map Prod.snd))

/-- A whole call of `IsLocked(ctx, key)` against the servers. -/
def IsLockedOn (servers : List Server) (key : String) : Bool :=
  IsLocked (servers.map (evalGet key))

/-! ## The votes, read off the replies -/

/-- The vote `SetLock` gives a reply: no error and a non-nil response. -/
def setVote (r : Reply) : Bool := decide (r.err = none ∧ r.resp ≠ Resp.nil)

/-- The vote `UnSetLock`, `GetLockTtl` and `IsLocked` give a reply: no error. -/
def errFree (r : Reply) : Bool := decide (r.err = none)

/-- The integer `GetLockTtl` collects from a reply without error. -/
def ttlOf (r : Reply) : Int :=
  match r.resp with
  | Resp.int n => n
  | _ => 0

/-- The replies of three servers of which server `down` is not reached and the
others accept the acquire script. -/
def missing (down : Fin 3) (i : Fin 3) : Reply :=
  if i = down then unreachable else ⟨Resp.str "OK", none⟩

/-- A reachable server on which no key is stored. -/
def freshServer : Server := ⟨true, fun _ => none⟩

/-- A keyspace in which only `my-key` is stored, held by token `123`. -/
def heldStore : Store := fun k => if k = "my-key" then some ⟨"123", 60500⟩ else none


end Redlock

/-! ## Lemmas on the helpers and the workers -/

namespace Redlock

theorem sum_loop (iter : List Bool) (num : Nat) :
    iter.foldl (fun num b => if b then num + 1 else num) num = num + iter.count true := by
  induction iter generalizing num with
  | nil => simp
  | cons b rest ih =>
    cases b
    · simp [ih]
    · simp [ih]; omega

theorem sum_eq_count (iter : List Bool) : sum iter = iter.count true := by
  simp [sum, sum_loop]

theorem sum_map (f : Reply → Bool) (replies : List Reply) :
    sum (replies.map f) = replies.countP f := by
  rw [sum_eq_count]
  induction replies with
  | nil => rfl
  | cons r rest ih =>
    cases h : f r <;> simp [List.countP_cons, h, ih]

theorem setLockWorker_eq (acc : List Bool) (r : Reply) :
    setLockWorker acc r = acc ++ [setVote r] := by
  unfold setLockWorker setVote
  by_cases h1 : r.err = none
  · by_cases h2 : r.resp = Resp.nil
    · simp [h1, h2]
    · simp [h1, h2]
  · simp [h1]

theorem unSetLockWorker_eq (acc : List Bool) (r : Reply) :
    unSetLockWorker acc r = acc ++ [errFree r] := by
  unfold unSetLockWorker errFree
  by_cases h1 : r.err = none
  · simp [h1]
  · simp [h1]

theorem isLockedWorker_eq (acc : List Bool) (r : Reply) :
    isLockedWorker acc r = acc ++ [errFree r] := by
  unfold isLockedWorker errFree
  by_cases h1 : r.err = none
  · simp [h1]
  · simp [h1]

theorem foldl_setLockWorker (replies : List Reply) (acc : List Bool) :
    replies.foldl setLockWorker acc = acc ++ replies.map setVote := by
  induction replies generalizing acc with
  | nil => simp
  | cons r rest ih => simp [ih, setLockWorker_eq]

theorem foldl_unSetLockWorker (replies : List Reply) (acc : List Bool) :
    replies.foldl unSetLockWorker acc = acc ++ replies.map errFree := by
  induction replies generalizing acc with
  | nil => simp
  | cons r rest ih => simp [ih, unSetLockWorker_eq]

theorem foldl_isLockedWorker (replies : List Reply) (acc : List Bool) :
    replies.foldl isLockedWorker acc = acc ++ replies.map errFree := by
  induction replies generalizing acc with
  | nil => simp
  | cons r rest ih => simp [ih, isLockedWorker_eq]

theorem getLockTtlWorker_eq (t : TtlTally) (r : Reply) :
    getLockTtlWorker t r =
      ⟨t.successfulSets ++ [errFree r],
        t.TtlSets ++ (if errFree r then [ttlOf r] else [])⟩ := by
  unfold getLockTtlWorker errFree ttlOf
  by_cases h1 : r.err = none
  · simp [h1]
  · simp [h1]

theorem foldl_getLockTtlWorker (replies : List Reply) (t : TtlTally) :
    replies.foldl getLockTtlWorker t =
      ⟨t.successfulSets ++ replies.map errFree,
        t.TtlSets ++ (replies.filter errFree).map ttlOf⟩ := by
  induction replies generalizing t with
  | nil => simp
  | cons r rest ih =>
    rw [List.foldl_cons, ih, getLockTtlWorker_eq]
    cases h : errFree r <;> simp [List.filter_cons, h]

theorem tally_votes (replies : List Reply) :
    (getLockTtlTally replies).successfulSets = replies.map errFree := by
  simp [getLockTtlTally, foldl_getLockTtlWorker]

theorem tally_ttls (replies : List Reply) :
    (getLockTtlTally replies).TtlSets = (replies.filter errFree).map ttlOf := by
  simp [getLockTtlTally, foldl_getLockTtlWorker]

theorem allEqualLoop_iff (first : Int) (rest : List Int) :
    allEqualLoop first rest = true ↔ ∀ x ∈ rest, x = first := by
  induction rest with
  | nil => simp [allEqualLoop]
  | cons x rest ih =>
    by_cases h : x = first
    · simp [allEqualLoop, h, ih]
    · simp [allEqualLoop, h]

theorem allEqual_iff (iter : List Int) :
    allEqual iter = true ↔ ∀ x ∈ iter, ∀ y ∈ iter, x = y := by
  cases iter with
  | nil => simp [allEqual]
  | cons first rest =>
    simp only [allEqual, allEqualLoop_iff]
    constructor
    · intro h x hx y hy
      have hx1 : x = first := by
        rcases List.mem_cons.1 hx with rfl | hx
        · rfl
        · exact h x hx
      have hy1 : y = first := by
        rcases List.mem_cons.1 hy with rfl | hy
        · rfl
        · exact h y hy
      rw [hx1, hy1]
    · intro h x hx
      exact h x (List.mem_cons_of_mem _ hx) first (List.mem_cons_self _ _)

theorem countP_add_countP_not (f : Reply → Bool) (replies : List Reply) :
    replies.countP f + replies.countP (fun r => !f r) = replies.length := by
  induction replies with
  | nil => rfl
  | cons r rest ih =>
    cases h : f r <;> simp [List.countP_cons, h] <;> omega

theorem setLock_eq (key : String) (elapsed : Nat) (replies : List Reply) :
    SetLock key elapsed replies =
      if replies.length / 2 + 1 ≤ replies.countP setVote then ⟨elapsed, none⟩
      else ⟨0, some ("Can not acquire the lock " ++ key)⟩ := by
  simp only [SetLock, foldl_setLockWorker, List.nil_append, sum_map]
  by_cases h : replies.length / 2 + 1 ≤ replies.countP setVote <;> simp [h]

theorem unSetLock_eq (key : String) (elapsed : Nat) (replies : List Reply) :
    UnSetLock key elapsed replies =
      if replies.length / 2 + 1 ≤ replies.countP errFree then ⟨elapsed, none⟩
      else ⟨0, some ("Can not release the lock " ++ key)⟩ := by
  simp only [UnSetLock, foldl_unSetLockWorker, List.nil_append, sum_map]
  by_cases h : replies.length / 2 + 1 ≤ replies.countP errFree <;> simp [h]

theorem isLocked_eq (replies : List Reply) :
    IsLocked replies = decide (replies.length / 2 + 1 ≤ replies.countP errFree) := by
  simp only [IsLocked, foldl_isLockedWorker, List.nil_append, sum_map]

end Redlock

/-! ## Lemmas on GetLockTtl -/

namespace Redlock

theorem filter_ne_nil_of_quorum (replies : List Reply)
    (h : replies.length / 2 + 1 ≤ replies.countP errFree) :
    (replies.filter errFree).map ttlOf ≠ [] := by
  intro hnil
  have h0 : (replies.filter errFree).length = 0 := by
    have := congrArg List.length hnil
    simpa using this
  rw [← List.countP_eq_length_filter] at h0
  omega

theorem getLockTtl_eq (key : String) (elapsed : Nat) (replies : List Reply) :
    GetLockTtl key elapsed replies =
      if allEqual ((replies.filter errFree).map ttlOf) = true ∧
          replies.length / 2 + 1 ≤ replies.countP errFree then
        match (replies.filter errFree).map ttlOf with
        | first :: _ => TtlResult.ret first none
        | [] => TtlResult.indexOutOfRange
      else TtlResult.ret 0 (some (ttlError key elapsed)) := by
  simp only [GetLockTtl, tally_votes, tally_ttls, sum_map, ttlError]
  by_cases h1 : allEqual ((replies.filter errFree).map ttlOf) = true
  · by_cases h2 : replies.length / 2 + 1 ≤ replies.countP errFree
    · simp [h1, h2]
    · simp [h1, h2]
  · simp [h1]

theorem getLockTtl_ne_indexOutOfRange (key : String) (elapsed : Nat) (replies : List Reply) :
    GetLockTtl key elapsed replies ≠ TtlResult.indexOutOfRange := by
  rw [getLockTtl_eq]
  by_cases h : allEqual ((replies.filter errFree).map ttlOf) = true ∧
      replies.length / 2 + 1 ≤ replies.countP errFree
  · rw [if_pos h]
    have hne := filter_ne_nil_of_quorum replies h.2
    cases hT : (replies.filter errFree).map ttlOf with
    | nil => exact absurd hT hne
    | cons first rest => simp
  · rw [if_neg h]
    simp

theorem getLockTtl_ret_iff (key : String) (elapsed : Nat) (replies : List Reply) (t : Int) :
    GetLockTtl key elapsed replies = TtlResult.ret t none ↔
      (replies.length / 2 + 1 ≤ replies.countP errFree ∧
        allEqual ((replies.filter errFree).map ttlOf) = true ∧
        t ∈ (replies.filter errFree).map ttlOf) := by
  rw [getLockTtl_eq]
  by_cases hq : replies.length / 2 + 1 ≤ replies.countP errFree
  · by_cases ha : allEqual ((replies.filter errFree).map ttlOf) = true
    · have hne := filter_ne_nil_of_quorum replies hq
      rw [if_pos ⟨ha, hq⟩]
      have hall := (allEqual_iff _).1 ha
      cases hT : (replies.filter errFree).map ttlOf with
      | nil => exact absurd hT hne
      | cons first rest =>
        rw [hT] at hall
        simp only [TtlResult.ret.injEq, and_true]
        constructor
        · intro h
          subst h
          exact ⟨hq, by rw [← hT]; exact ha, List.mem_cons_self _ _⟩
        · intro h
          exact hall first (List.mem_cons_self _ _) t h.2.2
    · simp [ha]
  · simp [hq]

theorem getLockTtl_failure (key : String) (elapsed : Nat) (replies : List Reply)
    (h : ¬ (replies.length / 2 + 1 ≤ replies.countP errFree ∧
      allEqual ((replies.filter errFree).map ttlOf) = true)) :
    GetLockTtl key elapsed replies = TtlResult.ret 0 (some (ttlError key elapsed)) := by
  rw [getLockTtl_eq, if_neg]
  intro h2
  exact h ⟨h2.2, h2.1⟩

theorem countP_disjoint {α : Type} (p q : α → Bool) (l : List α)
    (h : ∀ x ∈ l, ¬ (p x = true ∧ q x = true)) :
    l.countP p + l.countP q ≤ l.length := by
  induction l with
  | nil => simp
  | cons a rest ih =>
    have hrest := ih (fun x hx => h x (List.mem_cons_of_mem _ hx))
    have ha := h a (List.mem_cons_self _ _)
    cases hp : p a <;> cases hq : q a <;> simp [List.countP_cons, hp, hq] at ha ⊢ <;> omega

/-! ## Lemmas on the scripts -/

theorem lockCommand_free (db : Store) (key value : String) (px : Int) (hpx : 0 < px)
    (h : redisGet db key = none ∨ redisGet db key = some value) :
    lockCommand db key value px =
      (Function.update db key (some ⟨value, px⟩), ScriptReply.status "OK") := by
  simp [lockCommand, redisSetPX, h, not_le.2 hpx]

theorem lockCommand_held (db : Store) (key value tok : String) (px : Int)
    (h : redisGet db key = some tok) (hne : tok ≠ value) :
    lockCommand db key value px = (db, ScriptReply.error "ERROR") := by
  simp [lockCommand, h, hne]

theorem setLockOn_accept (servers : List Server) (key value : String) (ttl : Int)
    (elapsed : Nat) (hN : 1 ≤ servers.length) (hpx : 0 < expiryMillis ttl)
    (h : ∀ s ∈ servers, s.up = true ∧
      (redisGet s.db key = none ∨ redisGet s.db key = some value)) :
    SetLockOn servers key value ttl elapsed =
      (servers.map (fun s =>
          ⟨true, Function.update s.db key (some ⟨value, expiryMillis ttl⟩)⟩),
        ⟨elapsed, none⟩) := by
  have hmap : servers.map (evalLock key value (expiryMillis ttl)) =
      servers.map (fun s =>
        ((⟨true, Function.update s.db key (some ⟨value, expiryMillis ttl⟩)⟩ : Server),
          (⟨Resp.str "OK", none⟩ : Reply))) := by
    apply List.map_congr_left
    intro s hs
    obtain ⟨hup, hfree⟩ := h s hs
    simp [evalLock, hup, lockCommand_free _ _ _ _ hpx hfree, ScriptReply.toReply]
  have hcount : ∀ l : List Server,
      (l.map (fun _ => (⟨Resp.str "OK", none⟩ : Reply))).countP setVote = l.length := by
    intro l
    induction l with
    | nil => rfl
    | cons a rest ih =>
      rw [List.map_cons, List.countP_cons_of_pos _ _ (by decide), ih, List.length_cons]
  simp only [SetLockOn, hmap, List.map_map, setLock_eq, List.length_map]
  have hc := hcount servers
  simp only [Function.comp_def] at hc ⊢
  simp only [hc]
  rw [if_pos (by omega)]

theorem setLockOn_refuse (servers : List Server) (key value : String) (ttl : Int)
    (elapsed : Nat)
    (h : ∀ s ∈ servers, s.up = true ∧ ∃ tok, redisGet s.db key = some tok ∧ tok ≠ value) :
    SetLockOn servers key value ttl elapsed =
      (servers, ⟨0, some ("Can not acquire the lock " ++ key)⟩) := by
  have hmap : servers.map (evalLock key value (expiryMillis ttl)) =
      servers.map (fun s => (s, (⟨Resp.nil, some "ERROR"⟩ : Reply))) := by
    apply List.map_congr_left
    intro s hs
    obtain ⟨hup, tok, hget, hne⟩ := h s hs
    obtain ⟨up, db⟩ := s
    simp only at hup hget
    subst hup
    simp [evalLock, lockCommand_held _ _ _ _ _ hget hne, ScriptReply.toReply]
  have hcount : ∀ l : List Server,
      (l.map (fun _ => (⟨Resp.nil, some "ERROR"⟩ : Reply))).countP setVote = 0 := by
    intro l
    induction l with
    | nil => rfl
    | cons a rest ih =>
      rw [List.map_cons, List.countP_cons_of_neg _ _ (by decide), ih]
  simp only [SetLockOn, hmap, List.map_map, setLock_eq, List.length_map]
  have hc := hcount servers
  simp only [Function.comp_def] at hc ⊢
  simp only [hc]
  rw [if_neg (by omega)]
  simp

theorem mem_stored (servers : List Server) (key value : String) (px : Int) :
    ∀ s ∈ servers.map (fun s =>
        (⟨true, Function.update s.db key (some ⟨value, px⟩)⟩ : Server)),
      s.up = true ∧ s.db key = some ⟨value, px⟩ := by
  intro s hs
  obtain ⟨s₀, _, rfl⟩ := List.mem_map.1 hs
  simp

end Redlock

/-! ## The claims -/

namespace Redlock

/-- C1: for every list of per-server replies (the empty list included), `SetLock`
returns a nil error exactly when the servers whose call returned no error and a
non-nil response number at least `floor(N/2)+1`, `UnSetLock` returns a nil error
exactly when the servers whose call returned no error number at least
`floor(N/2)+1`, and either operation otherwise returns the duration 0 with the
error whose message ends in the key. -/
theorem setLock_unSetLock_quorum (key : String) (elapsed : Nat) (replies : List Reply) :
    ((SetLock key elapsed replies).err = none ↔
      replies.length / 2 + 1 ≤
        replies.countP (fun r => decide (r.err = none ∧ r.resp ≠ Resp.nil))) ∧
    ((UnSetLock key elapsed replies).err = none ↔
      replies.length / 2 + 1 ≤ replies.countP (fun r => decide (r.err = none))) ∧
    ((SetLock key elapsed replies).err = none ∨
      SetLock key elapsed replies = ⟨0, some ("Can not acquire the lock " ++ key)⟩) ∧
    ((UnSetLock key elapsed replies).err = none ∨
      UnSetLock key elapsed replies = ⟨0, some ("Can not release the lock " ++ key)⟩) := by
  have hs := setLock_eq key elapsed replies
  have hu := unSetLock_eq key elapsed replies
  have e1 : (fun r : Reply => decide (r.err = none ∧ r.resp ≠ Resp.nil)) = setVote := rfl
  have e2 : (fun r : Reply => decide (r.err = none)) = errFree := rfl
  rw [e1, e2]
  by_cases h1 : replies.length / 2 + 1 ≤ replies.countP setVote
  · by_cases h2 : replies.length / 2 + 1 ≤ replies.countP errFree
    · simp [hs, hu, h1, h2]
    · simp [hs, hu, h1, h2]
  · by_cases h2 : replies.length / 2 + 1 ≤ replies.countP errFree
    · simp [hs, hu, h1, h2]
    · simp [hs, hu, h1, h2]

/-- C2: `GetLockTtl` returns `(t, nil)` exactly when at least `floor(N/2)+1`
servers voted success and all collected TTL integers (the integers of the
replies without error) are equal to one another, `t` being one of them.  When
both conditions hold the call does return `(t, nil)` with `t` the integer of
the first reply without error, which every collected integer equals; when
either fails it returns 0 and the TTL error. -/
theorem getLockTtl_quorum_and_agreement (key : String) (elapsed : Nat) (replies : List Reply) :
    (getLockTtlTally replies).TtlSets =
      (replies.filter (fun r => decide (r.err = none))).map ttlOf ∧
    (∀ t : Int, GetLockTtl key elapsed replies = TtlResult.ret t none ↔
      (replies.length / 2 + 1 ≤ replies.countP (fun r => decide (r.err = none)) ∧
        (∀ x ∈ (replies.filter (fun r => decide (r.err = none))).map ttlOf,
          ∀ y ∈ (replies.filter (fun r => decide (r.err = none))).map ttlOf, x = y) ∧
        t ∈ (replies.filter (fun r => decide (r.err = none))).map ttlOf)) ∧
    ((replies.length / 2 + 1 ≤ replies.countP (fun r => decide (r.err = none)) ∧
        (∀ x ∈ (replies.filter (fun r => decide (r.err = none))).map ttlOf,
          ∀ y ∈ (replies.filter (fun r => decide (r.err = none))).map ttlOf, x = y) ∧
        ∃ t : Int,
          ((replies.filter (fun r => decide (r.err = none))).map ttlOf).head? = some t ∧
          (∀ x ∈ (replies.filter (fun r => decide (r.err = none))).map ttlOf, x = t) ∧
          GetLockTtl key elapsed replies = TtlResult.ret t none) ∨
      (¬ (replies.length / 2 + 1 ≤ replies.countP (fun r => decide (r.err = none)) ∧
          ∀ x ∈ (replies.filter (fun r => decide (r.err = none))).map ttlOf,
            ∀ y ∈ (replies.filter (fun r => decide (r.err = none))).map ttlOf, x = y) ∧
        GetLockTtl key elapsed replies = TtlResult.ret 0 (some (ttlError key elapsed)))) := by
  have e2 : (fun r : Reply => decide (r.err = none)) = errFree := rfl
  rw [e2, ← allEqual_iff]
  refine ⟨tally_ttls replies, fun t => getLockTtl_ret_iff key elapsed replies t, ?_⟩
  by_cases h : replies.length / 2 + 1 ≤ replies.countP errFree ∧
      allEqual ((replies.filter errFree).map ttlOf) = true
  · left
    have hne := filter_ne_nil_of_quorum replies h.1
    have hall := (allEqual_iff _).1 h.2
    cases hT : (replies.filter errFree).map ttlOf with
    | nil => exact absurd hT hne
    | cons first rest =>
      rw [hT] at hall
      refine ⟨h.1, by rw [← hT]; exact h.2, first, rfl,
        fun x hx => hall x hx first (List.mem_cons_self _ _), ?_⟩
      rw [getLockTtl_ret_iff, hT]
      exact ⟨h.1, by rw [← hT]; exact h.2, List.mem_cons_self _ _⟩
  · exact Or.inr ⟨h, getLockTtl_failure key elapsed replies h⟩

/-- C3, the claim as stated fails: a server whose call errors appends a failure
vote and no TTL entry, so the TTL list is shorter than the list of votes. -/
theorem getLockTtl_failure_vote_collects_nothing :
    (getLockTtlTally [⟨Resp.nil, some "ERROR"⟩]).successfulSets = [false] ∧
    (getLockTtlTally [⟨Resp.nil, some "ERROR"⟩]).TtlSets = [] ∧
    (getLockTtlTally [⟨Resp.nil, some "ERROR"⟩]).TtlSets.length ≠
      (getLockTtlTally [⟨Resp.nil, some "ERROR"⟩]).successfulSets.length := by
  decide

/-- C3, amended: every server contacted casts one vote; the integer of a server
is collected exactly when its vote is a success (the call returned no error),
in the order of the votes, and a failure vote adds no TTL entry: the collected
TTL list has one entry per success vote. -/
theorem getLockTtl_collects_on_success_only (replies : List Reply) :
    (getLockTtlTally replies).successfulSets = replies.map (fun r => decide (r.err = none)) ∧
    (getLockTtlTally replies).TtlSets =
      (replies.filter (fun r => decide (r.err = none))).map ttlOf ∧
    (getLockTtlTally replies).successfulSets.length = replies.length ∧
    (getLockTtlTally replies).TtlSets.length = sum (getLockTtlTally replies).successfulSets := by
  have e2 : (fun r : Reply => decide (r.err = none)) = errFree := rfl
  rw [e2, tally_votes, tally_ttls, sum_map]
  simp [List.countP_eq_length_filter]

/-- C4: with `N >= 1` servers of which `f` vote failure (an error or a nil
reply) and the others success, `SetLock` succeeds exactly when
`f <= floor((N-1)/2)`, and fails with the quorum error exactly when `f` is
larger. -/
theorem setLock_tolerates_minority (key : String) (elapsed : Nat) (replies : List Reply)
    (hN : 1 ≤ replies.length) :
    ((SetLock key elapsed replies).err = none ↔
      replies.countP (fun r => !setVote r) ≤ (replies.length - 1) / 2) ∧
    (SetLock key elapsed replies = ⟨0, some ("Can not acquire the lock " ++ key)⟩ ↔
      (replies.length - 1) / 2 + 1 ≤ replies.countP (fun r => !setVote r)) := by
  have hlen := countP_add_countP_not setVote replies
  have hs := setLock_eq key elapsed replies
  by_cases h1 : replies.length / 2 + 1 ≤ replies.countP setVote
  · rw [hs, if_pos h1]
    simp only [true_iff, Timed.mk.injEq, reduceCtorEq, and_false, false_iff, not_le]
    constructor <;> omega
  · rw [hs, if_neg h1]
    simp only [reduceCtorEq, false_iff, not_le, true_iff]
    constructor <;> omega

/-- C4 at three servers of which one is unreachable. -/
theorem setLock_tolerates_minority_witness :
    ((SetLock "my-key" 2 [⟨Resp.str "OK", none⟩, unreachable, ⟨Resp.str "OK", none⟩]).err = none ↔
      [⟨Resp.str "OK", none⟩, unreachable, ⟨Resp.str "OK", none⟩].countP
        (fun r => !setVote r) ≤ (3 - 1) / 2) ∧
    (SetLock "my-key" 2 [⟨Resp.str "OK", none⟩, unreachable, ⟨Resp.str "OK", none⟩] =
        ⟨0, some ("Can not acquire the lock " ++ "my-key")⟩ ↔
      (3 - 1) / 2 + 1 ≤ [⟨Resp.str "OK", none⟩, unreachable, ⟨Resp.str "OK", none⟩].countP
        (fun r => !setVote r)) :=
  setLock_tolerates_minority "my-key" 2
    [⟨Resp.str "OK", none⟩, unreachable, ⟨Resp.str "OK", none⟩] (by decide)

/-- C5: the tally does not depend on the order of arrival.  On a permutation
of the votes `sum` returns the same count, the number of `true` entries; on a
permutation of the replies `SetLock`, `UnSetLock` and `IsLocked` decide alike;
`allEqual` answers alike on a permuted TTL list, and `GetLockTtl` succeeds for
one order exactly when it does for the other, returning the same TTL. -/
theorem tally_order_independent (key : String) (elapsed elapsed' : Nat)
    (votes votes' : List Bool) (replies replies' : List Reply) (ttls ttls' : List Int)
    (hv : votes'.Perm votes) (hr : replies'.Perm replies) (ht : ttls'.Perm ttls) :
    sum votes = votes.count true ∧
    sum votes' = sum votes ∧
    (SetLock key elapsed' replies').err = (SetLock key elapsed replies).err ∧
    (UnSetLock key elapsed' replies').err = (UnSetLock key elapsed replies).err ∧
    IsLocked replies' = IsLocked replies ∧
    allEqual ttls' = allEqual ttls ∧
    allEqual (getLockTtlTally replies').TtlSets = allEqual (getLockTtlTally replies).TtlSets ∧
    (∀ t : Int, GetLockTtl key elapsed' replies' = TtlResult.ret t none ↔
      GetLockTtl key elapsed replies = TtlResult.ret t none) := by
  have hlen := hr.length_eq
  have hset := hr.countP_eq setVote
  have herr := hr.countP_eq errFree
  have hT : ((replies'.filter errFree).map ttlOf).Perm ((replies.filter errFree).map ttlOf) :=
    (hr.filter errFree).map ttlOf
  have hall : ∀ a b : List Int, a.Perm b → allEqual a = allEqual b := by
    intro a b hab
    rw [Bool.eq_iff_iff, allEqual_iff, allEqual_iff]
    constructor
    · intro h x hx y hy
      exact h x (hab.mem_iff.2 hx) y (hab.mem_iff.2 hy)
    · intro h x hx y hy
      exact h x (hab.mem_iff.1 hx) y (hab.mem_iff.1 hy)
  refine ⟨sum_eq_count votes, ?_, ?_, ?_, ?_, hall _ _ ht, ?_, ?_⟩
  · rw [sum_eq_count, sum_eq_count, hv.count_eq]
  · rw [setLock_eq, setLock_eq, hlen, hset]
    by_cases h : replies.length / 2 + 1 ≤ replies.countP setVote <;> simp [h]
  · rw [unSetLock_eq, unSetLock_eq, hlen, herr]
    by_cases h : replies.length / 2 + 1 ≤ replies.countP errFree <;> simp [h]
  · rw [isLocked_eq, isLocked_eq, hlen, herr]
  · rw [tally_ttls, tally_ttls]
    exact hall _ _ hT
  · intro t
    rw [getLockTtl_ret_iff, getLockTtl_ret_iff, hlen, herr, hall _ _ hT, hT.mem_iff]

/-- C5 at three replies that arrive in two different orders. -/
theorem tally_order_independent_witness :
    sum [true, false, true] = [true, false, true].count true ∧
    sum [false, true, true] = sum [true, false, true] ∧
    (SetLock "my-key" 7 [unreachable, ⟨Resp.int 60, none⟩, ⟨Resp.int 60, none⟩]).err =
      (SetLock "my-key" 3 [⟨Resp.int 60, none⟩, unreachable, ⟨Resp.int 60, none⟩]).err ∧
    (UnSetLock "my-key" 7 [unreachable, ⟨Resp.int 60, none⟩, ⟨Resp.int 60, none⟩]).err =
      (UnSetLock "my-key" 3 [⟨Resp.int 60, none⟩, unreachable, ⟨Resp.int 60, none⟩]).err ∧
    IsLocked [unreachable, ⟨Resp.int 60, none⟩, ⟨Resp.int 60, none⟩] =
      IsLocked [⟨Resp.int 60, none⟩, unreachable, ⟨Resp.int 60, none⟩] ∧
    allEqual [59, 60, 60] = allEqual [60, 60, 59] ∧
    allEqual (getLockTtlTally [unreachable, ⟨Resp.int 60, none⟩, ⟨Resp.int 60, none⟩]).TtlSets =
      allEqual (getLockTtlTally [⟨Resp.int 60, none⟩, unreachable, ⟨Resp.int 60, none⟩]).TtlSets ∧
    (∀ t : Int,
      GetLockTtl "my-key" 7 [unreachable, ⟨Resp.int 60, none⟩, ⟨Resp.int 60, none⟩] =
        TtlResult.ret t none ↔
      GetLockTtl "my-key" 3 [⟨Resp.int 60, none⟩, unreachable, ⟨Resp.int 60, none⟩] =
        TtlResult.ret t none) :=
  tally_order_independent "my-key" 3 7 [true, false, true] [false, true, true]
    [⟨Resp.int 60, none⟩, unreachable, ⟨Resp.int 60, none⟩]
    [unreachable, ⟨Resp.int 60, none⟩, ⟨Resp.int 60, none⟩]
    [60, 60, 59] [59, 60, 60]
    (List.Perm.swap true false [true])
    (List.Perm.swap _ _ _)
    ((List.Perm.swap 60 59 [60]).trans ((List.Perm.swap 60 59 []).cons 60))

/-- C6: `IsLocked` returns true exactly when at least `floor(N/2)+1` of the
`GET` calls return a value without error; run against the servers, exactly when
at least `floor(N/2)+1` servers are reached and hold a record for the key,
whatever its token; a server without the record or whose call errors does not
count. -/
theorem isLocked_quorum (replies : List Reply) (servers : List Server) (key : String) :
    (IsLocked replies = true ↔
      replies.length / 2 + 1 ≤ replies.countP (fun r => decide (r.err = none))) ∧
    (IsLockedOn servers key = true ↔
      servers.length / 2 + 1 ≤ servers.countP (fun s => s.up && (s.db key).isSome)) := by
  have e2 : (fun r : Reply => decide (r.err = none)) = errFree := rfl
  constructor
  · rw [e2, isLocked_eq]
    simp
  · have hc : (servers.map (evalGet key)).countP errFree =
        servers.countP (fun s => s.up && (s.db key).isSome) := by
      rw [List.countP_map]
      apply List.countP_congr
      intro s _
      cases hup : s.up <;> cases hdb : s.db key <;>
        simp [evalGet, errFree, redisGet, unreachable, hup, hdb]
    rw [IsLockedOn, isLocked_eq, List.length_map, hc]
    simp

/-- C9: `GetLockTtl` never indexes an empty TTL list: no list of replies makes
`TtlSets[0]` go out of range, because the success branch is taken only with a
non-empty TTL list; `allEqual` of the empty list is true, and with no server or
with every server in error the call returns the TTL error. -/
theorem getLockTtl_index_in_bounds (key : String) (elapsed : Nat) (replies : List Reply) :
    GetLockTtl key elapsed replies ≠ TtlResult.indexOutOfRange ∧
    ((allEqual (getLockTtlTally replies).TtlSets &&
        decide (sum (getLockTtlTally replies).successfulSets ≥ replies.length / 2 + 1)) = false ∨
      (getLockTtlTally replies).TtlSets ≠ []) ∧
    allEqual [] = true ∧
    GetLockTtl key elapsed [] = TtlResult.ret 0 (some (ttlError key elapsed)) ∧
    ((∃ r ∈ replies, r.err = none) ∨
      ((getLockTtlTally replies).TtlSets = [] ∧
        GetLockTtl key elapsed replies = TtlResult.ret 0 (some (ttlError key elapsed)))) := by
  refine ⟨getLockTtl_ne_indexOutOfRange key elapsed replies, ?_, rfl, rfl, ?_⟩
  · rw [tally_votes, tally_ttls, sum_map]
    by_cases hq : replies.length / 2 + 1 ≤ replies.countP errFree
    · exact Or.inr (filter_ne_nil_of_quorum replies hq)
    · left
      simp [hq]
  · by_cases h : ∃ r ∈ replies, r.err = none
    · exact Or.inl h
    · right
      have hf : replies.filter errFree = [] := by
        rw [List.filter_eq_nil_iff]
        intro r hr hfree
        exact h ⟨r, hr, by simpa [errFree] using hfree⟩
      have h0 : replies.countP errFree = 0 := by
        rw [List.countP_eq_length_filter, hf]
        rfl
      refine ⟨by rw [tally_ttls, hf]; rfl, getLockTtl_failure key elapsed replies ?_⟩
      intro hq
      omega

/-- C10: two calls of `SetLock` over the same `N` servers that both reach the
threshold `floor(N/2)+1` have a server that voted success in both, whatever the
orders in which the replies arrive; any two sets of at least `floor(N/2)+1` of
the `N` servers share a server; and with no server neither `SetLock` (then
`0 < N`) nor any other of the four operations reaches the threshold. -/
theorem quorum_intersection (N : Nat) (outcome₁ outcome₂ : Fin N → Reply)
    (arrival₁ arrival₂ : List (Fin N)) (key₁ key₂ : String) (elapsed₁ elapsed₂ : Nat) :
    (arrival₁.Perm (List.finRange N) → arrival₂.Perm (List.finRange N) →
      (SetLock key₁ elapsed₁ (arrival₁.map outcome₁)).err = none →
      (SetLock key₂ elapsed₂ (arrival₂.map outcome₂)).err = none →
      0 < N ∧ ∃ i : Fin N, setVote (outcome₁ i) = true ∧ setVote (outcome₂ i) = true) ∧
    (∀ A B : Finset (Fin N), N / 2 + 1 ≤ A.card → N / 2 + 1 ≤ B.card → (A ∩ B).Nonempty) ∧
    SetLock key₁ elapsed₁ [] = ⟨0, some ("Can not acquire the lock " ++ key₁)⟩ ∧
    UnSetLock key₁ elapsed₁ [] = ⟨0, some ("Can not release the lock " ++ key₁)⟩ ∧
    GetLockTtl key₁ elapsed₁ [] = TtlResult.ret 0 (some (ttlError key₁ elapsed₁)) ∧
    IsLocked [] = false := by
  refine ⟨?_, ?_, rfl, rfl, rfl, rfl⟩
  swap
  · intro A B hA hB
    have hcard := Finset.card_union_add_card_inter A B
    have hle : (A ∪ B).card ≤ N := by
      simpa using Finset.card_le_univ (A ∪ B)
    rw [← Finset.card_pos]
    omega
  intro h₁ h₂ hs₁ hs₂
  have hq : ∀ (o : Fin N → Reply) (a : List (Fin N)) (k : String) (e : Nat),
      a.Perm (List.finRange N) → (SetLock k e (a.map o)).err = none →
      N / 2 + 1 ≤ (List.finRange N).countP (fun i => setVote (o i)) := by
    intro o a k e ha hs
    rw [setLock_eq] at hs
    have hlen : (a.map o).length = N := by
      rw [List.length_map, ha.length_eq, List.length_finRange]
    have hcount : (a.map o).countP setVote = (List.finRange N).countP (fun i => setVote (o i)) := by
      rw [List.countP_map]
      exact ha.countP_eq _
    rw [hlen, hcount] at hs
    by_contra hlt
    rw [if_neg hlt] at hs
    simp at hs
  have q₁ := hq outcome₁ arrival₁ key₁ elapsed₁ h₁ hs₁
  have q₂ := hq outcome₂ arrival₂ key₂ elapsed₂ h₂ hs₂
  have hle := List.countP_le_length (fun i => setVote (outcome₁ i)) (l := List.finRange N)
  rw [List.length_finRange] at hle
  refine ⟨by omega, ?_⟩
  by_contra hno
  have hdis := countP_disjoint (fun i => setVote (outcome₁ i)) (fun i => setVote (outcome₂ i))
    (List.finRange N) (fun i _ hi => hno ⟨i, hi⟩)
  rw [List.length_finRange] at hdis
  omega

/-- C10 at three servers: the first call misses server 0, the second server 2,
and the replies of the first call arrive in the order 2, 0, 1. -/
theorem quorum_intersection_witness :
    0 < 3 ∧ ∃ i : Fin 3, setVote (missing 0 i) = true ∧ setVote (missing 2 i) = true :=
  (quorum_intersection 3 (missing 0) (missing 2) [2, 0, 1] [0, 1, 2] "my-key" "my-key" 1 1).1
    (by decide) (by decide) (by decide) (by decide)

/-- C7: on `N >= 1` reachable servers that do not hold the key, and for a `ttl`
whose expiry `ttl*1000+500` is positive (the expiries the server accepts),
`SetLock(key, tokenA, ttl)` succeeds and leaves every server holding `tokenA`;
a following `SetLock(key, tokenA, ttl₂)` succeeds again and every server holds
`tokenA` with the expiry of that second call; and `SetLock(key, tokenB, ttl₃)`
with another token, after the first or after the second call, fails with the
quorum error and leaves the servers as they were. -/
theorem setLock_reacquire (servers : List Server) (key tokenA tokenB : String)
    (ttl ttl₂ ttl₃ : Int) (e₁ e₂ e₃ : Nat)
    (hN : 1 ≤ servers.length) (hup : ∀ s ∈ servers, s.up = true)
    (habsent : ∀ s ∈ servers, s.db key = none) (hne : tokenB ≠ tokenA)
    (hpx : 0 < expiryMillis ttl) (hpx₂ : 0 < expiryMillis ttl₂) :
    (SetLockOn servers key tokenA ttl e₁).2 = ⟨e₁, none⟩ ∧
    (SetLockOn servers key tokenA ttl e₁).1.length = servers.length ∧
    (∀ s ∈ (SetLockOn servers key tokenA ttl e₁).1,
      s.db key = some ⟨tokenA, expiryMillis ttl⟩) ∧
    (SetLockOn (SetLockOn servers key tokenA ttl e₁).1 key tokenA ttl₂ e₂).2 = ⟨e₂, none⟩ ∧
    (SetLockOn (SetLockOn servers key tokenA ttl e₁).1 key tokenA ttl₂ e₂).1.length =
      servers.length ∧
    (∀ s ∈ (SetLockOn (SetLockOn servers key tokenA ttl e₁).1 key tokenA ttl₂ e₂).1,
      s.db key = some ⟨tokenA, expiryMillis ttl₂⟩) ∧
    SetLockOn (SetLockOn servers key tokenA ttl e₁).1 key tokenB ttl₃ e₃ =
      ((SetLockOn servers key tokenA ttl e₁).1,
        ⟨0, some ("Can not acquire the lock " ++ key)⟩) ∧
    SetLockOn (SetLockOn (SetLockOn servers key tokenA ttl e₁).1 key tokenA ttl₂ e₂).1
        key tokenB ttl₃ e₃ =
      ((SetLockOn (SetLockOn servers key tokenA ttl e₁).1 key tokenA ttl₂ e₂).1,
        ⟨0, some ("Can not acquire the lock " ++ key)⟩) := by
  have h₁ := setLockOn_accept servers key tokenA ttl e₁ hN hpx
    (fun s hs => ⟨hup s hs, Or.inl (by simp [redisGet, habsent s hs])⟩)
  have hmem₁ := mem_stored servers key tokenA (expiryMillis ttl)
  have hlen₁ : (servers.map (fun s =>
      (⟨true, Function.update s.db key (some ⟨tokenA, expiryMillis ttl⟩)⟩ : Server))).length =
      servers.length := List.length_map _ _
  have h₂ := setLockOn_accept _ key tokenA ttl₂ e₂ (hlen₁ ▸ hN) hpx₂
    (fun s hs => ⟨(hmem₁ s hs).1, Or.inr (by simp [redisGet, (hmem₁ s hs).2])⟩)
  have hmem₂ := mem_stored (servers.map (fun s =>
      (⟨true, Function.update s.db key (some ⟨tokenA, expiryMillis ttl⟩)⟩ : Server)))
    key tokenA (expiryMillis ttl₂)
  have h₃ := setLockOn_refuse _ key tokenB ttl₃ e₃
    (fun s hs => ⟨(hmem₁ s hs).1, tokenA, by simp [redisGet, (hmem₁ s hs).2], Ne.symm hne⟩)
  have h₄ := setLockOn_refuse _ key tokenB ttl₃ e₃
    (fun s hs => ⟨(hmem₂ s hs).1, tokenA, by simp [redisGet, (hmem₂ s hs).2], Ne.symm hne⟩)
  rw [h₁]
  simp only
  rw [h₂]
  simp only
  refine ⟨trivial, hlen₁, fun s hs => (hmem₁ s hs).2, trivial, ?_,
    fun s hs => (hmem₂ s hs).2, h₃, h₄⟩
  rw [List.length_map, hlen₁]

/-- C7 at three fresh servers, key `my-key`, tokens `123` and `456`, ttl 60. -/
theorem setLock_reacquire_witness :
    0 < expiryMillis 60 ∧
    (SetLockOn [freshServer, freshServer, freshServer] "my-key" "123" 60 2).2 = ⟨2, none⟩ ∧
    (∀ s ∈ (SetLockOn [freshServer, freshServer, freshServer] "my-key" "123" 60 2).1,
      s.db "my-key" = some ⟨"123", expiryMillis 60⟩) ∧
    (SetLockOn (SetLockOn [freshServer, freshServer, freshServer] "my-key" "123" 60 2).1
      "my-key" "123" 60 3).2 = ⟨3, none⟩ ∧
    (SetLockOn (SetLockOn [freshServer, freshServer, freshServer] "my-key" "123" 60 2).1
      "my-key" "456" 60 4).2 = ⟨0, some ("Can not acquire the lock " ++ "my-key")⟩ :=
  have h := setLock_reacquire [freshServer, freshServer, freshServer] "my-key" "123" "456"
    60 60 60 2 3 4 (by decide) (by decide) (by decide) (by decide) (by decide) (by decide)
  ⟨by decide, h.1, h.2.2.1, h.2.2.2.1, congrArg Prod.snd h.2.2.2.2.2.2.1⟩

/-- C8: on a store whose record for the key holds `tokenA`, the release script
run with another token leaves the store as it is and replies an error, which
the worker of `UnSetLock` turns into a failure vote; run with `tokenA` it
removes the record and the vote is a success; and on a store without the key
it changes nothing and the vote is a success. -/
theorem release_owner_checked (held absent : Store) (key tokenA tokenB : String)
    (expiry : Int) (votes : List Bool)
    (hheld : held key = some ⟨tokenA, expiry⟩) (habsent : absent key = none)
    (hne : tokenB ≠ tokenA) :
    (delCommand held key tokenB).1 = held ∧
    (delCommand held key tokenB).2 = ScriptReply.error "ERROR" ∧
    (delCommand held key tokenB).2.toReply.err ≠ none ∧
    unSetLockWorker votes (delCommand held key tokenB).2.toReply = votes ++ [false] ∧
    (delCommand held key tokenA).1 key = none ∧
    (delCommand held key tokenA).2 = ScriptReply.integer 1 ∧
    unSetLockWorker votes (delCommand held key tokenA).2.toReply = votes ++ [true] ∧
    (delCommand absent key tokenA).1 = absent ∧
    (delCommand absent key tokenA).2 = ScriptReply.status "OK" ∧
    unSetLockWorker votes (delCommand absent key tokenA).2.toReply = votes ++ [true] := by
  have hB : delCommand held key tokenB = (held, ScriptReply.error "ERROR") := by
    simp [delCommand, redisGet, hheld, Ne.symm hne]
  have hA : delCommand held key tokenA =
      (Function.update held key none, ScriptReply.integer 1) := by
    simp [delCommand, redisGet, redisDel, hheld]
  have h0 : delCommand absent key tokenA = (absent, ScriptReply.status "OK") := by
    simp [delCommand, redisGet, habsent]
  rw [hB, hA, h0]
  simp [ScriptReply.toReply, unSetLockWorker_eq, errFree]

/-- C8 at the key `my-key` held by token `123` and released with token `456`. -/
theorem release_owner_checked_witness :
    (delCommand heldStore "my-key" "456").1 = heldStore ∧
    unSetLockWorker [] (delCommand heldStore "my-key" "456").2.toReply = [] ++ [false] ∧
    (delCommand heldStore "my-key" "123").1 "my-key" = none ∧
    unSetLockWorker [] (delCommand heldStore "my-key" "123").2.toReply = [] ++ [true] ∧
    unSetLockWorker [] (delCommand (fun _ => none) "my-key" "123").2.toReply = [] ++ [true] :=
  have h := release_owner_checked heldStore (fun _ => none) "my-key" "123" "456" 60500 []
    (by decide) (by decide) (by decide)
  ⟨h.1, h.2.2.2.1, h.2.2.2.2.1, h.2.2.2.2.2.2.1, h.2.2.2.2.2.2.2.2.2⟩

end Redlock
